import Mathlib

/-!
Verification of the obsidian_import planning-and-execution engine.

This file is a shallow embedding of src/obsidian_import.py.  Python strings
are modelled as Lean String (with hand-rolled, kernel-reducible helpers that
mirror the Python builtins used by the script), filesystem paths as lists of
path components, the filesystem as an explicit snapshot value, tasks (Python
dicts) as a structure with one field per dict key that occurs in the script,
and the Python re library as an abstract regex-engine parameter.  Definitions
follow the source functions of the same name; theorems settle the claims.
-/

namespace OI

/-! ## String helpers mirroring the Python builtins used by the script.

All helpers are structurally recursive so that concrete instances reduce
inside the kernel. -/

/-- Whitespace test matching the characters Python str.strip removes
(ASCII fragment). -/
def isSpaceChar (c : Char) : Bool :=
  ([' ', '\t', '\n', '\r', '\x0b', '\x0c'] : List Char).contains c

/-- Model of Python str.strip(). -/
def pyStrip (s : String) : String :=
  String.mk (((s.toList.dropWhile isSpaceChar).reverse.dropWhile isSpaceChar).reverse)

/-- Model of Python str.startswith. -/
def pyStartsWith (s pre : String) : Bool :=
  pre.toList.isPrefixOf s.toList

/-- Model of Python str.endswith. -/
def pyEndsWith (s suf : String) : Bool :=
  suf.toList.reverse.isPrefixOf s.toList.reverse

/-- Split a character list at the first occurrence of a separator list,
returning the parts before and after it.  Mirrors Python str.partition. -/
def breakOnSub (sep : List Char) : List Char → Option (List Char × List Char)
  | [] => if sep.isEmpty then some ([], []) else none
  | c :: rest =>
    if sep.isPrefixOf (c :: rest) then some ([], (c :: rest).drop sep.length)
    else
      match breakOnSub sep rest with
      | some (a, b) => some (c :: a, b)
      | none => none

/-- Model of Python line.partition on the colon-space separator: the key and
the raw value when the separator occurs, none otherwise. -/
def partitionKV (s : String) : Option (String × String) :=
  match breakOnSub [':', ' '] s.toList with
  | some (a, b) => some (String.mk a, String.mk b)
  | none => none

/-- Substring occurrence test on character lists. -/
def listHasSub (sub : List Char) : List Char → Bool
  | [] => sub.isEmpty
  | c :: rest => sub.isPrefixOf (c :: rest) || listHasSub sub rest

/-- Model of the Python containment test sub in s. -/
def strContains (s sub : String) : Bool :=
  listHasSub sub.toList s.toList

/-- Split a character list on a separator character, keeping empty segments,
as Python str.split does. -/
def splitChar (sep : Char) : List Char → List (List Char)
  | [] => [[]]
  | c :: rest =>
    if c == sep then [] :: splitChar sep rest
    else
      match splitChar sep rest with
      | h :: t => (c :: h) :: t
      | [] => [[c]]

/-- Join strings with a separator, as Python sep.join / writing lines does. -/
def joinWith (sep : String) : List String → String
  | [] => ""
  | [x] => x
  | x :: xs => x ++ sep ++ joinWith sep xs

/-- Model of Python str.lower restricted to ASCII case mapping. -/
def pyLower (s : String) : String :=
  String.mk (s.toList.map Char.toLower)

/-- Replace every occurrence of a nonempty pattern, fuel-recursive so that it
reduces in the kernel.  Mirrors Python str.replace. -/
def replaceSubAux (pat rep : List Char) : Nat → List Char → List Char
  | 0, cs => cs
  | _, [] => []
  | fuel + 1, c :: rest =>
    if !pat.isEmpty && pat.isPrefixOf (c :: rest) then
      rep ++ replaceSubAux pat rep fuel ((c :: rest).drop pat.length)
    else
      c :: replaceSubAux pat rep fuel rest

/-- Model of Python s.replace(pat, rep). -/
def strReplace (s pat rep : String) : String :=
  String.mk (replaceSubAux pat.toList rep.toList s.toList.length s.toList)

/-- Hex digit value of a character, for percent decoding, computed from the
code point (48-57 digits, 97-102 lower, 65-70 upper). -/
def hexVal (c : Char) : Option Nat :=
  let n := c.toNat
  if 48 ≤ n ∧ n ≤ 57 then some (n - 48)
  else if 97 ≤ n ∧ n ≤ 102 then some (n - 87)
  else if 65 ≤ n ∧ n ≤ 70 then some (n - 55)
  else none

/-- Percent-decoding of a character list (ASCII model of urllib unquote). -/
def percentDecode : List Char → List Char
  | '%' :: a :: b :: rest =>
    match hexVal a, hexVal b with
    | some x, some y => Char.ofNat (16 * x + y) :: percentDecode rest
    | _, _ => '%' :: percentDecode (a :: b :: rest)
  | c :: rest => c :: percentDecode rest
  | [] => []

/-- Model of urllib.parse.unquote (ASCII fragment). -/
def pyUnquote (s : String) : String :=
  String.mk (percentDecode s.toList)

/-- Characters urllib.parse.quote leaves unescaped with the default
safe set (letters, digits, underscore, dot, dash, tilde, and the slash). -/
def isQuoteSafe (c : Char) : Bool :=
  c.isAlphanum || c == '_' || c == '.' || c == '-' || c == '~' || c == '/'

/-- Upper-case hex digit for percent encoding. -/
def hexDigitChar (n : Nat) : Char :=
  (("0123456789ABCDEF".toList).getD n '0')

/-- Percent-encode one character (ASCII model of urllib quote). -/
def quoteChar (c : Char) : List Char :=
  if isQuoteSafe c then [c]
  else if c.toNat < 256 then ['%', hexDigitChar (c.toNat / 16), hexDigitChar (c.toNat % 16)]
  else [c]

/-- Model of urllib.parse.quote with the default safe set (ASCII fragment). -/
def pyQuote (s : String) : String :=
  String.mk ((s.toList.map quoteChar).flatten)

/-- Index of the rightmost dot in a character list. -/
def lastDotIdx : List Char → Option Nat
  | [] => none
  | c :: rest =>
    match lastDotIdx rest with
    | some j => some (j + 1)
    | none => if c == '.' then some 0 else none

/-- Model of pathlib stem/suffix splitting of a file name: CPython splits at
the last dot when it is neither the first nor past the last character. -/
def splitStemExt (nm : String) : String × String :=
  let cs := nm.toList
  match lastDotIdx cs with
  | some i =>
    if 0 < i ∧ i < cs.length - 1 then (String.mk (cs.take i), String.mk (cs.drop i))
    else (nm, "")
  | none => (nm, "")

/-! ## Data model: paths, tasks, metadata rules. -/

/-- Filesystem paths as lists of components, from the filesystem root. -/
abbrev FPath := List String

/-- Last path component, as pathlib name. -/
def pathName (p : FPath) : String :=
  p.getLast?.getD ""

/-- A task record: one field per dict key the script stores in a task.
Python task dicts omit keys; omitted string and list fields are the empty
defaults and an omitted status is none (the dict has no status key). -/
structure Task where
  type : String := ""
  status : Option String := none
  is_pre_task : Bool := false
  src : FPath := []
  dest : FPath := []
  file : FPath := []
  key : String := ""
  old : String := ""
  new : String := ""
  content : String := ""
  position : String := ""
  action : String := ""
  path_mapping : List (String × String) := []
deriving Repr, DecidableEq

/-- One metadata action from the rule configuration, with the parameter
fields the script reads from the action dict. -/
structure MAction where
  type : String := ""
  new_name : Option String := none
  content : String := ""
  atParam : Option String := none
  value_mapping : List (String × String) := []
  regex_mapping : List (String × String) := []
deriving Repr, DecidableEq

/-- A metadata rule: the action list stored under a rule key. -/
structure MRule where
  actions : List MAction := []
deriving Repr, DecidableEq

/-- The configuration fields the planning and execution core reads.
Rule dictionaries keep insertion order, hence the association list. -/
structure Config where
  metadata_rules : List (String × MRule) := []
  metadata_section_rules : List (String × String × String) := []
deriving Repr, DecidableEq

/-- Abstract interface to the Python re library: a search test, a test for
capturing groups in a pattern, and substitution.  The script is parametric
in this engine; concrete theorems instantiate it. -/
structure RegexEngine where
  research : String → String → Bool
  hasGroups : String → Bool
  sub : String → String → String → String

/-- A regex engine on which no pattern matches, for concrete instances whose
rules carry no regex mappings. -/
def trivialEngine : RegexEngine :=
  ⟨fun _ _ => false, fun _ => false, fun _ _ v => v⟩

/-! ## Metadata rule engine: the planner side.

Embeds process_metadata_line and apply_metadata_actions
(src/obsidian_import.py lines 436-558). -/

/-- Sort key used by apply_metadata_actions: modify_value before
append_after before rename, everything else last. -/
def actionPriority (t : String) : Nat :=
  if t == "modify_value" then 0
  else if t == "append_after" then 1
  else if t == "rename" then 2
  else 999

/-- Stable insertion into a list sorted by a numeric key: the new element
goes before the first strictly larger key, after equal keys. -/
def insertByKey (f : MAction → Nat) (a : MAction) : List MAction → List MAction
  | [] => [a]
  | b :: bs => if f a ≤ f b then a :: b :: bs else b :: insertByKey f a bs

/-- Stable sort by a numeric key, the behaviour of Python sorted. -/
def stableSortByKey (f : MAction → Nat) : List MAction → List MAction
  | [] => []
  | a :: as => insertByKey f a (stableSortByKey f as)

/-- Planner regex branch of modify_value: first matching pattern wins; with
capturing groups the replacement is a substitution template, without them it
replaces the whole value (lines 529-540). -/
def plannerRegexApply (E : RegexEngine) : List (String × String) → String → Option String
  | [], _ => none
  | (rx, rep) :: rest, v =>
    if E.research rx v then some (if E.hasGroups rx then E.sub rx rep v else rep)
    else plannerRegexApply E rest v

/-- Accumulated state of the planner action fold: current key, current
value, and the modified flag. -/
structure PState where
  ck : String
  cv : String
  modified : Bool
deriving Repr, DecidableEq

/-- One step of the planner action fold (the loop body of
apply_metadata_actions, lines 520-546).  The rename default is the original
key of the line, not the current key. -/
def plannerStep (E : RegexEngine) (key : String) (st : PState) (a : MAction) : PState :=
  if a.type == "modify_value" then
    match a.value_mapping.lookup st.cv with
    | some v => ⟨st.ck, v, true⟩
    | none =>
      match plannerRegexApply E a.regex_mapping st.cv with
      | some v => ⟨st.ck, v, true⟩
      | none => st
  else if a.type == "append_after" then ⟨st.ck, st.cv ++ a.content, true⟩
  else if a.type == "rename" then ⟨a.new_name.getD key, st.cv, true⟩
  else st

/-- The planner action fold: retain and delete are filtered out, the rest
is stably sorted by priority and folded over the key and value. -/
def plannerFold (E : RegexEngine) (key value : String) (actions : List MAction) : PState :=
  (stableSortByKey (fun a => actionPriority a.type)
      (actions.filter (fun a => a.type != "retain" && a.type != "delete"))).foldl
    (plannerStep E key) ⟨key, value, false⟩

/-- Embedding of apply_metadata_actions (lines 499-558): emit one replace
task when the fold modified the pair. -/
def apply_metadata_actions (E : RegexEngine) (current_file : FPath) (key value : String)
    (actions : List MAction) : List Task :=
  let st := plannerFold E key value actions
  if st.modified then
    [{ type := "TRANSFORM_METADATA", key := key, old := key ++ ": " ++ value,
       new := st.ck ++ ": " ++ st.cv, action := "replace", file := current_file }]
  else []

/-- The tasks the planner emits for one resolved rule: the delete guard, the
sole-retain guard, the insert pre-tasks, then apply_metadata_actions
(the body of process_metadata_line after rule resolution, lines 458-497). -/
def ruleTasks (E : RegexEngine) (current_file : FPath) (key value : String) (r : MRule) : List Task :=
  if r.actions.any (fun a => a.type == "delete") then
    [{ type := "TRANSFORM_METADATA", key := key, action := "delete", file := current_file }]
  else if r.actions.any (fun a => a.type == "retain") && r.actions.length == 1 then []
  else
    (r.actions.filter (fun a => a.type == "insert")).map (fun a =>
      { type := "INSERT_CONTENT", position := a.atParam.getD "before", content := a.content,
        key := key, file := current_file, is_pre_task := true, status := some "todo" })
    ++ apply_metadata_actions E current_file key value r.actions

/-- Embedding of process_metadata_line (lines 436-497).  Rule resolution is
the first rule key, in configuration order, that is a prefix of the field
key; a field with no matching rule yields no task. -/
def process_metadata_line (E : RegexEngine) (rules : List (String × MRule)) (current_file : FPath)
    (line : String) : List Task :=
  match partitionKV line with
  | none => []
  | some (key, rawv) =>
    match rules.filter (fun p => pyStartsWith key p.1) with
    | [] => []
    | (_, r) :: _ => ruleTasks E current_file key (pyStrip rawv) r

/-- The key the planner resolves a field key to: the first configured rule
key that is a prefix of it. -/
def firstPrefixRuleKey (rules : List (String × MRule)) (key : String) : Option String :=
  ((rules.filter (fun p => pyStartsWith key p.1)).head?).map (·.1)

/-- Modelled from the spec: resolve the applicable rule by exact key match
or, failing that, by the longest configured rule key that is a prefix of the
field key.  This is the resolution rule the specification describes; the
code resolves differently (see firstPrefixRuleKey). -/
def specResolveRuleKey (rules : List (String × MRule)) (key : String) : Option String :=
  if (rules.lookup key).isSome then some key
  else
    (rules.filter (fun p => pyStartsWith key p.1)).foldl
      (fun best p =>
        match best with
        | none => some p.1
        | some b => if b.length < p.1.length then some p.1 else some b)
      none

/-- The key-and-value outcome the planner logic computes for one line:
deletion, the retain passthrough, or the folded pair (the pair carried by
the replace task when one is emitted). -/
def plannerLineOutcome (E : RegexEngine) (key value : String) (actions : List MAction) :
    Option (String × String) :=
  if actions.any (fun a => a.type == "delete") then none
  else if actions.any (fun a => a.type == "retain") && actions.length == 1 then some (key, value)
  else
    let st := plannerFold E key value actions
    some (st.ck, st.cv)

/-! ## Metadata block extraction: read_metadata_lines (lines 384-434). -/

/-- Comment test the scanner applies before metadata parsing. -/
def isCommentLine (l : String) : Bool :=
  pyStartsWith (pyStrip l) "#"

/-- Boundary test for the metadata region, applied to a stripped line. -/
def mdStop (l : String) : Bool :=
  l == "" || l == "---"

/-- Find, in the first ten lines, the first non-comment line whose key
exactly matches a configured rule key (lines 402-409). -/
def findMetadataStart (rules : List (String × MRule)) : List String → Nat → Option Nat
  | [], _ => none
  | l :: rest, i =>
    if isCommentLine l then findMetadataStart rules rest (i + 1)
    else
      match partitionKV l with
      | some (k, _) =>
        if (rules.lookup (pyStrip k)).isSome then some i
        else findMetadataStart rules rest (i + 1)
      | none => findMetadataStart rules rest (i + 1)

/-- Backward expansion from the start line (lines 417-423): walk down the
indices collecting stripped key-value lines until a blank or separator. -/
def backLines (content : List String) : Nat → List String
  | 0 =>
    let l := pyStrip ((content.get? 0).getD "")
    if mdStop l then [] else if strContains l ": " then [l] else []
  | i + 1 =>
    let l := pyStrip ((content.get? (i + 1)).getD "")
    if mdStop l then []
    else backLines content i ++ (if strContains l ": " then [l] else [])

/-- Forward expansion after the start line (lines 425-431). -/
def fwdLines : List String → List String
  | [] => []
  | l :: rest =>
    let s := pyStrip l
    if mdStop s then []
    else (if strContains s ": " then [s] else []) ++ fwdLines rest

/-- Embedding of read_metadata_lines (lines 384-434) over the file content
as a list of lines. -/
def read_metadata_lines (rules : List (String × MRule)) (content : List String) : List String :=
  match findMetadataStart rules (content.take 10) 0 with
  | none => []
  | some i => backLines content i ++ fwdLines (content.drop (i + 1))

/-- Embedding of generate_metadata_tasks (lines 560-577): process every
metadata line, then set every task status to todo. -/
def generate_metadata_tasks (E : RegexEngine) (rules : List (String × MRule))
    (current_file : FPath) (content : List String) : List Task :=
  ((read_metadata_lines rules content).flatMap (process_metadata_line E rules current_file)).map
    (fun t => { t with status := some "todo" })

/-! ## Unmapped-metadata registry: validate_metadata_mappings (lines 356-382).

The function exists in the script but has no call site; the scan never
invokes it, so the statistics registry keeps its initial empty value. -/

/-- Add a value under a key in the registry, preserving insertion order. -/
def registryAdd (reg : List (String × List String)) (k v : String) :
    List (String × List String) :=
  if reg.any (fun p => p.1 == k) then
    reg.map (fun p => if p.1 == k then (p.1, p.2 ++ [v]) else p)
  else reg ++ [(k, [v])]

/-- Registry membership test, the Python value in unmapped.get(key, set()). -/
def registryHas (reg : List (String × List String)) (k v : String) : Bool :=
  ((reg.lookup k).getD []).contains v

/-- Embedding of validate_metadata_mappings (lines 356-382): record, once
per key and value, every observed value a modify_value direct map does not
cover, for rules found by exact key lookup. -/
def validate_metadata_mappings (rules : List (String × MRule)) (lines : List String)
    (unmapped : List (String × List String)) : List (String × List String) :=
  lines.foldl
    (fun reg line =>
      match partitionKV line with
      | none => reg
      | some (key, value) =>
        match rules.lookup key with
        | none => reg
        | some r =>
          r.actions.foldl
            (fun reg a =>
              if a.type == "modify_value" then
                if (a.value_mapping.lookup (pyStrip value)).isNone
                    && !registryHas reg key (pyStrip value) then
                  registryAdd reg key (pyStrip value)
                else reg
              else reg)
            reg)
    unmapped

/-- The unmapped-metadata registry as initialize_scan_stats creates it
(line 599): empty. -/
def initialize_scan_stats_unmapped : List (String × List String) := []

/-! ## Metadata transformation: the executor side.

Embeds apply_action, transform_metadata and map_metadata
(lines 1061-1155 and 1193-1230). -/

/-- Executor regex branch of modify_value (lines 1094-1098): the first
matching pattern is substituted, with no capturing-group distinction, after
the direct map has already been applied. -/
def execRegexApply (E : RegexEngine) : List (String × String) → String → String
  | [], v => v
  | (rx, rep) :: rest, v =>
    if E.research rx v then E.sub rx rep v else execRegexApply E rest v

/-- Embedding of apply_action (lines 1061-1107): none signals deletion.
Unlike the planner, modify_value applies the regex list to the output of the
direct map, and unknown action types (including retain and insert) return
the pair unchanged. -/
def apply_action (E : RegexEngine) (key value : String) (a : MAction) :
    Option (String × String) :=
  if a.type == "delete" then none
  else if a.type == "rename" then some (a.new_name.getD key, value)
  else if a.type == "modify_value" then
    let nv := pyStrip value
    let nv :=
      match a.value_mapping.lookup nv with
      | some v => v
      | none => nv
    some (key, execRegexApply E a.regex_mapping nv)
  else if a.type == "append_after" then some (key, pyStrip value ++ a.content)
  else some (key, value)

/-- The executor action loop of transform_metadata (lines 1143-1148):
actions in configured order, stopping at a deletion. -/
def applyActions (E : RegexEngine) : String → String → List MAction → Option (String × String)
  | k, v, [] => some (k, v)
  | k, v, a :: rest =>
    match apply_action E k v a with
    | none => none
    | some (k2, v2) => applyActions E k2 v2 rest

/-- The key-and-value outcome the executor logic computes for one line:
the action loop started on the stripped value (line 1142). -/
def execLineOutcome (E : RegexEngine) (key value : String) (actions : List MAction) :
    Option (String × String) :=
  applyActions E key (pyStrip value) actions

/-- Embedding of transform_metadata (lines 1109-1155): comment lines are
dropped, non-metadata lines pass through, rules are resolved by exact key
lookup, and surviving metadata lines are rewritten from the loop outcome. -/
def transform_metadata (E : RegexEngine) (rules : List (String × MRule)) :
    List String → List String
  | [] => []
  | line :: rest =>
    if isCommentLine line then transform_metadata E rules rest
    else
      match partitionKV line with
      | none => line :: transform_metadata E rules rest
      | some (key, value) =>
        match rules.lookup key with
        | none => line :: transform_metadata E rules rest
        | some r =>
          match execLineOutcome E key value r.actions with
          | none => transform_metadata E rules rest
          | some (ck, cv) => (ck ++ ": " ++ cv) :: transform_metadata E rules rest

/-- The metadata-region boundary map_metadata computes (lines 1209-1213):
the index of the first blank line, defaulting to zero when none exists. -/
def firstBlankIdx (content : List String) : Nat :=
  ((content.findIdx? (fun l => pyStrip l == "")).getD 0)

/-- Embedding of map_metadata (lines 1193-1230) at the line level: transform
the lines before the first blank line, keep the rest verbatim. -/
def map_metadata (E : RegexEngine) (rules : List (String × MRule)) (content : List String) :
    List String :=
  let i := firstBlankIdx content
  transform_metadata E rules (content.take i) ++ content.drop i

/-! ## Filesystem snapshot. -/

/-- A snapshot of the filesystem: text files with their content, and
directories.  List order stands in for directory-listing order. -/
structure FSnap where
  files : List (FPath × String) := []
  dirs : List FPath := []
deriving Repr, DecidableEq

/-- File existence test. -/
def FSnap.isFile (fs : FSnap) (p : FPath) : Bool :=
  fs.files.any (fun f => f.1 == p)

/-- Directory existence test. -/
def FSnap.isDir (fs : FSnap) (p : FPath) : Bool :=
  fs.dirs.contains p

/-- Path existence test, as pathlib exists. -/
def FSnap.pathExists (fs : FSnap) (p : FPath) : Bool :=
  fs.isFile p || fs.isDir p

/-- Read a file, empty when the path is not a file. -/
def FSnap.readFile (fs : FSnap) (p : FPath) : String :=
  ((fs.files.find? (fun f => f.1 == p)).map (·.2)).getD ""

/-- The entries of a directory (files and subdirectories), as iterdir. -/
def FSnap.children (fs : FSnap) (d : FPath) : List FPath :=
  (fs.files.map (·.1) ++ fs.dirs).filter (fun p => p.dropLast == d && p != ([] : FPath))

/-- The subdirectories of a directory. -/
def FSnap.childDirs (fs : FSnap) (d : FPath) : List FPath :=
  fs.dirs.filter (fun p => p.dropLast == d && p != ([] : FPath))

/-- Create a directory if missing, as mkdir with exist_ok. -/
def FSnap.mkdirP (fs : FSnap) (d : FPath) : FSnap :=
  if fs.dirs.contains d then fs else { fs with dirs := fs.dirs ++ [d] }

/-- Write to an existing file (the script only writes files it first read). -/
def FSnap.writeFile (fs : FSnap) (p : FPath) (c : String) : FSnap :=
  { fs with files := fs.files.map (fun f => if f.1 == p then (p, c) else f) }

/-- Create or overwrite a file, as an open-for-write or a copy destination. -/
def FSnap.putFile (fs : FSnap) (p : FPath) (c : String) : FSnap :=
  if fs.isFile p then fs.writeFile p c else { fs with files := fs.files ++ [(p, c)] }

/-! ## Attachment resolver: scan_attachments (lines 690-825). -/

/-- Word-character test of the Python regex word class (ASCII fragment):
the underscore or an alphanumeric character. -/
def isWordChar (c : Char) : Bool :=
  c == '_' || c.isAlphanum

/-- The document identifier: the regex searching for a space, 32 word
characters and the document extension at the end of the path (line 705). -/
def uidOf (name : String) : Option String :=
  if pyEndsWith name ".md" then
    let base := name.toList.take (name.toList.length - 3)
    if 33 ≤ base.length then
      if (base.drop (base.length - 32)).all isWordChar
          && ((base.get? (base.length - 33)).getD ' ' == ' ') then
        some (String.mk (base.drop (base.length - 32)))
      else none
    else none
  else none

/-- The matched attachment directory: the first sibling directory whose name
contains the document identifier (lines 708-720). -/
def find_attachment_dir (fs : FSnap) (original_path : FPath) : Option FPath :=
  match uidOf (pathName original_path) with
  | none => none
  | some uid => (fs.childDirs original_path.dropLast).find? (fun d => strContains (pathName d) uid)

/-- Split into the lazily shortest run before a bracket-parenthesis pair on
the same line, as the first half of the link regex. -/
def splitLinkMid : List Char → Option (List Char × List Char)
  | [] => none
  | ']' :: '(' :: rest => some ([], rest)
  | '\n' :: _ => none
  | c :: rest => (splitLinkMid rest).map (fun pr => (c :: pr.1, pr.2))

/-- Split at the nearest closing parenthesis on the same line, capturing the
link target, as the second half of the link regex. -/
def splitParenClose : List Char → Option (List Char × List Char)
  | [] => none
  | ')' :: rest => some ([], rest)
  | '\n' :: _ => none
  | c :: rest => (splitParenClose rest).map (fun pr => (c :: pr.1, pr.2))

/-- Attempt a link match right after an opening bracket, returning the
captured target and the rest of the text. -/
def tryLink (cs : List Char) : Option (String × List Char) :=
  match splitLinkMid cs with
  | none => none
  | some (_, mid) =>
    match splitParenClose mid with
    | none => none
    | some (tgt, rest) => some (String.mk tgt, rest)

/-- Left-to-right non-overlapping scan for markdown link targets, the
findall over the link regex of line 731 (without regex backtracking across
failed candidate middles, which the claims never exercise). -/
def extractRefsAux : Nat → List Char → List String
  | 0, _ => []
  | _, [] => []
  | fuel + 1, c :: rest =>
    if c == '!' then
      match rest with
      | '[' :: rest2 =>
        match tryLink rest2 with
        | some (t, r2) => t :: extractRefsAux fuel r2
        | none => extractRefsAux fuel rest
      | _ => extractRefsAux fuel rest
    else if c == '[' then
      match tryLink rest with
      | some (t, r2) => t :: extractRefsAux fuel r2
      | none => extractRefsAux fuel rest
    else extractRefsAux fuel rest

/-- All link targets of a document text. -/
def extractRefs (s : String) : List String :=
  extractRefsAux s.toList.length s.toList

/-- The local references of a document: every link target that does not
start with a network scheme (lines 734-739). -/
def localRefsOf (fs : FSnap) (p : FPath) : List String :=
  (extractRefs (fs.readFile p)).filter
    (fun r => !(pyStartsWith r "http://" || pyStartsWith r "https://"))

/-- The supported attachment extensions (line 750). -/
def supported_extensions : List String :=
  [".png", ".jpg", ".jpeg", ".gif", ".bmp", ".mp4", ".mov", ".avi", ".mkv", ".pdf",
   ".heic", ".webp", ".qt", ".m4a", ".mp3", ".wav"]

/-- Split a reference string into path components, dropping empty segments
as pathlib does. -/
def splitSlash (s : String) : FPath :=
  ((splitChar '/' s.toList).filter (fun seg => seg != ([] : List Char))).map String.mk

/-- The filesystem path a reference resolves to: the scan root joined with
the unquoted reference (line 753). -/
def refPathOf (directory : FPath) (ref : String) : FPath :=
  directory ++ splitSlash (pyUnquote ref)

/-- A path relative to a base, as relative_to on paths below the base. -/
def relTo (p base : FPath) : FPath :=
  p.drop base.length

/-- Render a relative path with forward slashes (line 771). -/
def fpathStr (p : FPath) : String :=
  joinWith "/" p

/-- Store a key in the path mapping, replacing an existing entry in place,
as a Python dict assignment. -/
def assocSet (m : List (String × String)) (k v : String) : List (String × String) :=
  if m.any (fun p => p.1 == k) then m.map (fun p => if p.1 == k then (k, v) else p)
  else m ++ [(k, v)]

/-- The collision loop of the copy branch (lines 789-792): append an
underscore counter to the base name until the resource-directory path is
unused.  The fuel bounds the loop by the number of existing entries. -/
def attachNameLoop (fs : FSnap) (resource_dir : FPath) (base sfx : String) :
    Nat → Nat → String → String
  | 0, _, current => current
  | fuel + 1, counter, current =>
    if fs.pathExists (resource_dir ++ [current]) then
      attachNameLoop fs resource_dir base sfx fuel (counter + 1)
        (base ++ "_" ++ toString counter ++ sfx)
    else current

/-- Accumulated state of the reference loop of scan_attachments: the path
mapping, the generated tasks, and the moved-files counter. -/
structure AttState where
  mapping : List (String × String) := []
  tasks : List Task := []
  moved : Nat := 0
deriving Repr, DecidableEq

/-- The body of the reference loop of scan_attachments (lines 752-811):
skip missing paths and unsupported extensions, move attachments that live in
the matched attachment directory, copy the rest under a collision-avoiding
name. -/
def processRef (fs : FSnap) (original_path directory resource_dir : FPath)
    (attachment_dir : Option FPath) (st : AttState) (ref : String) : AttState :=
  let ref_path := refPathOf directory ref
  if !(fs.isFile ref_path || fs.isDir ref_path) then st
  else if fs.isFile ref_path then
    if !(supported_extensions.contains (pyLower (splitStemExt (pathName ref_path)).2)) then st
    else
      let inDir := match attachment_dir with
        | some ad => ref_path.dropLast == ad
        | none => false
      if inDir then
        let new_name := (splitStemExt (pathName original_path)).1 ++ "_" ++ pathName ref_path
        let new_path := resource_dir ++ [new_name]
        let old_s := pyQuote (fpathStr (relTo ref_path directory))
        let new_s := fpathStr (relTo new_path directory)
        let mt : Task :=
          { type := "MOVE_ATTACHMENT", src := ref_path, dest := new_path,
            is_pre_task := false, status := some "todo" }
        { mapping := assocSet st.mapping old_s new_s,
          tasks := st.tasks ++ [mt],
          moved := st.moved + 1 }
      else
        let base := (splitStemExt (pathName original_path)).1
        let sfx := (splitStemExt (pathName ref_path)).2
        let new_name := attachNameLoop fs resource_dir base sfx
          (fs.files.length + fs.dirs.length + 1) 1 (base ++ sfx)
        let new_path := resource_dir ++ [new_name]
        let old_s := pyQuote (fpathStr (relTo ref_path directory))
        let new_s := fpathStr (relTo new_path directory)
        let ct : Task :=
          { type := "COPY_ATTACHMENT", src := ref_path, dest := new_path,
            is_pre_task := true, status := some "todo" }
        { st with
          mapping := assocSet st.mapping old_s new_s,
          tasks := st.tasks ++ [ct] }
  else st

/-- Embedding of scan_attachments (lines 690-825), returning the path
mapping and the newly generated tasks (the Python function appends them to
the shared task list). -/
def scan_attachments (fs : FSnap) (original_path directory resource_dir : FPath) :
    List (String × String) × List Task :=
  let attachment_dir := find_attachment_dir fs original_path
  let content := fs.readFile original_path
  if content == "" then ([], [])
  else
    let local_refs := localRefsOf fs original_path
    if local_refs.isEmpty then ([], [])
    else
      let st := local_refs.foldl (processRef fs original_path directory resource_dir attachment_dir)
        {}
      let final_tasks :=
        match attachment_dir with
        | some ad =>
          if fs.pathExists ad then
            if st.moved == (fs.children ad).length then
              st.tasks ++ [{ type := "CLEANUP", dest := ad }]
            else st.tasks
          else st.tasks
        | none => st.tasks
      (st.mapping, final_tasks)

/-! ## Rename planning: generate_rename_markdown_task (lines 827-854). -/

/-- Strip the trailing space and 32 word characters from a document stem,
the substitution of line 839. -/
def stripUID (stem : String) : String :=
  let cs := stem.toList
  if 33 ≤ cs.length then
    if (cs.drop (cs.length - 32)).all isWordChar
        && ((cs.get? (cs.length - 33)).getD ' ' == ' ') then
      String.mk (cs.take (cs.length - 33))
    else stem
  else stem

/-- The collision loop of lines 841-844: try the base name, then the base
with an underscore counter, until the name is not among the stems already
used by planned rename tasks. -/
def renameLoop (used : List String) (base : String) : Nat → Nat → String → String
  | 0, _, current => current
  | fuel + 1, counter, current =>
    if used.contains current then
      renameLoop used base fuel (counter + 1) (base ++ "_" ++ toString counter)
    else current

/-- Embedding of generate_rename_markdown_task (lines 827-854): returns the
rename task and the extended task list. -/
def generate_rename_markdown_task (original_path directory : FPath) (tasks : List Task) :
    Task × List Task :=
  let base_name := stripUID (splitStemExt (pathName original_path)).1
  let used := (tasks.filter (fun t => t.type == "RENAME_MD")).map
    (fun t => (splitStemExt (pathName t.dest)).1)
  let new_name := renameLoop used base_name (used.length + 1) 1 base_name
  let t : Task :=
    { type := "RENAME_MD", src := original_path,
      dest := directory ++ [new_name ++ ".md"], status := some "todo" }
  (t, tasks ++ [t])

/-! ## Document scanner: scan_markdown_file and scan_directory
(lines 605-902). -/

/-- Split file content into lines. -/
def splitLines (s : String) : List String :=
  (splitChar '\n' s.toList).map String.mk

/-- Embedding of scan_markdown_file (lines 605-688): metadata tasks with
optional section-boundary inserts, attachment tasks, the reference-update
task when the mapping is nonempty, then the rename task. -/
def scan_markdown_file (E : RegexEngine) (fs : FSnap) (original_path directory resource_dir : FPath)
    (tasks : List Task) (cfg : Config) : List Task :=
  let content := splitLines (fs.readFile original_path)
  let metadata_tasks := generate_metadata_tasks E cfg.metadata_rules original_path content
  let tasks1 :=
    if metadata_tasks.isEmpty then tasks
    else
      let first_key := ((metadata_tasks.head?).map (·.key)).getD ""
      let last_key := ((metadata_tasks.getLast?).map (·.key)).getD ""
      let section_tasks := cfg.metadata_section_rules.flatMap (fun r =>
        let firstTasks : List Task :=
          if r.1 == "insert" && r.2.1 == "first" then
            [{ type := "INSERT_CONTENT", file := original_path, position := "before",
               content := r.2.2, key := first_key, is_pre_task := true,
               status := some "todo" }]
          else []
        let lastTasks : List Task :=
          if r.1 == "insert" && r.2.1 == "last" then
            [{ type := "INSERT_CONTENT", file := original_path, position := "after",
               content := r.2.2, key := last_key, is_pre_task := true,
               status := some "todo" }]
          else []
        firstTasks ++ lastTasks)
      tasks ++ section_tasks ++ metadata_tasks
  let r := scan_attachments fs original_path directory resource_dir
  let tasks2 := tasks1 ++ r.2
  let tasks3 :=
    if r.1.isEmpty then tasks2
    else tasks2 ++ [{ type := "UPDATE_ATTACH_REF", file := original_path, path_mapping := r.1 }]
  (generate_rename_markdown_task original_path directory tasks3).2

/-- Embedding of scan_directory (lines 857-902): create the resource
directory, walk the markdown files, accumulate the task list.  The third
component is the unmapped-metadata registry of the scan statistics: it is
initialized empty and no function in the scan call graph writes to it
(validate_metadata_mappings has no call site in the script). -/
def scan_directory (E : RegexEngine) (fs : FSnap) (directory : FPath)
    (attachment_output_path : String) (cfg : Config) :
    List Task × FSnap × List (String × List String) :=
  let resource_dir := directory ++ [attachment_output_path]
  let fs1 := fs.mkdirP resource_dir
  let md_files := (fs1.files.map (·.1)).filter
    (fun p => directory.isPrefixOf p && pyEndsWith (pathName p) ".md")
  let tasks := md_files.foldl
    (fun ts p => scan_markdown_file E fs1 p directory resource_dir ts cfg) []
  (tasks, fs1, initialize_scan_stats_unmapped)

/-! ## Executor: execute_task and execute_tasks (lines 917-1016), with the
per-kind effects of lines 931-965 and 1025-1230. -/

/-- Rewrite one line under the path mapping, percent-encoding replacements
(lines 1177-1184). -/
def updateRefsLine (mapping : List (String × String)) (l : String) : String :=
  mapping.foldl
    (fun line pr => if strContains line pr.1 then strReplace line pr.1 (pyQuote pr.2) else line)
    l

/-- The line splice of insert_content_in_file (lines 1045-1051): insert the
content line adjacent to every line starting with the anchor key. -/
def insertLines (key pos content : String) : List String → List String
  | [] => []
  | l :: rest =>
    (if pos == "before" && pyStartsWith l (key ++ ":") then [content] else [])
    ++ [l]
    ++ (if pos == "after" && pyStartsWith l (key ++ ":") then [content] else [])
    ++ insertLines key pos content rest

/-- Remove a directory and everything under it, the rmtree fallback of the
cleanup effect. -/
def FSnap.removeTree (fs : FSnap) (d : FPath) : FSnap :=
  { files := fs.files.filter (fun f => !(d.isPrefixOf f.1)),
    dirs := fs.dirs.filter (fun p => !(d.isPrefixOf p)) }

/-- The per-kind filesystem effect of execute_task (lines 931-965).  Moves
and copies of missing sources raise (modelled as an error); the text-rewrite
effects open files through safe_open_file, which swallows failures, so a
missing target file leaves the state unchanged without raising; cleanup of a
missing target only logs.  Directory renames are modelled for file sources
only (no claim moves a directory). -/
def performEffect (E : RegexEngine) (cfg : Config) (fs : FSnap) (t : Task) :
    Except String FSnap :=
  if t.type == "RENAME_MD" || t.type == "MOVE_ATTACHMENT" then
    match fs.files.find? (fun f => f.1 == t.src) with
    | some f => .ok (({ fs with files := fs.files.filter (fun g => g.1 != t.src) } : FSnap).putFile
        t.dest f.2)
    | none => .error "FileNotFoundError"
  else if t.type == "COPY_ATTACHMENT" then
    match fs.files.find? (fun f => f.1 == t.src) with
    | some f => .ok (fs.putFile t.dest f.2)
    | none => .error "FileNotFoundError"
  else if t.type == "UPDATE_ATTACH_REF" then
    if fs.isFile t.file then
      .ok (fs.writeFile t.file
        (joinWith "\n" ((splitLines (fs.readFile t.file)).map (updateRefsLine t.path_mapping))))
    else .ok fs
  else if t.type == "TRANSFORM_METADATA" then
    if fs.isFile t.file then
      .ok (fs.writeFile t.file
        (joinWith "\n" (map_metadata E cfg.metadata_rules (splitLines (fs.readFile t.file)))))
    else .ok fs
  else if t.type == "INSERT_CONTENT" then
    if fs.isFile t.file then
      .ok (fs.writeFile t.file
        (joinWith "\n" (insertLines t.key t.position t.content (splitLines (fs.readFile t.file)))))
    else .ok fs
  else if t.type == "CLEANUP" then
    if fs.isFile t.dest then
      .ok { fs with files := fs.files.filter (fun f => f.1 != t.dest) }
    else if fs.isDir t.dest then .ok (fs.removeTree t.dest)
    else .ok fs
  else .ok fs

/-- Embedding of execute_task (lines 917-971): a task already done or
failed returns untouched with no effect; otherwise the effect runs, the
status becomes done on success and fail on an exception, and the exception
is re-raised (the third component). -/
def execute_task (E : RegexEngine) (cfg : Config) (t : Task) (fs : FSnap) :
    Task × FSnap × Option String :=
  if t.status == some "done" || t.status == some "fail" then (t, fs, none)
  else
    match performEffect E cfg fs t with
    | .ok fs2 => ({ t with status := some "done" }, fs2, none)
    | .error e => ({ t with status := some "fail" }, fs, some e)

/-- Execute tasks in order; a raised exception propagates immediately,
leaving the remaining tasks untouched (the loop bodies of execute_tasks have
no handler). -/
def executeSeq (E : RegexEngine) (cfg : Config) : List Task → FSnap →
    List Task × FSnap × Option String
  | [], fs => ([], fs, none)
  | t :: rest, fs =>
    match execute_task E cfg t fs with
    | (t2, fs2, some e) => (t2 :: rest, fs2, some e)
    | (t2, fs2, none) =>
      let r := executeSeq E cfg rest fs2
      (t2 :: r.1, r.2.1, r.2.2)

/-- Embedding of execute_tasks (lines 973-1016): all pre-tasks in
generation order, then all main tasks in generation order; an exception
from any task aborts everything after it. -/
def execute_tasks (E : RegexEngine) (cfg : Config) (tasks : List Task) (fs : FSnap) :
    List Task × FSnap × Option String :=
  let pre := tasks.filter (fun t => t.is_pre_task)
  let mainT := tasks.filter (fun t => !t.is_pre_task)
  match executeSeq E cfg pre fs with
  | (pre2, fs2, some e) => (pre2 ++ mainT, fs2, some e)
  | (pre2, fs2, none) =>
    let r := executeSeq E cfg mainT fs2
    (pre2 ++ r.1, r.2.1, r.2.2)

/-! ## Claim C5: planner versus executor metadata logic. -/

/-- An append_after action appending a marker, for the C5 instance. -/
def actAppendX : MAction := { type := "append_after", content := "X" }

/-- A modify_value action with a one-entry direct map, for the C5 instance. -/
def actModAB : MAction := { type := "modify_value", value_mapping := [("a", "b")] }

/-- A rule listing append_after before modify_value, for the C5 instance. -/
def rulesC5 : List (String × MRule) := [("k", { actions := [actAppendX, actModAB] })]

/-- Claim C5, counterexample: on the line with key k and value a, under a
rule listing append_after before modify_value, the planner sorts
modify_value first and plans the replacement value bX, while the executor
applies the actions in configured order and writes aX.  The two line-level
logics disagree, refuting the claim. -/
theorem C5_counterexample :
    process_metadata_line trivialEngine rulesC5 [] "k: a" =
      [{ type := "TRANSFORM_METADATA", key := "k", old := "k: a", new := "k: bX",
         action := "replace", file := [] }] ∧
    transform_metadata trivialEngine rulesC5 ["k: a"] = ["k: aX"] ∧
    plannerLineOutcome trivialEngine "k" "a" [actAppendX, actModAB] ≠
      execLineOutcome trivialEngine "k" "a" [actAppendX, actModAB] :=
  ⟨by decide, by decide, by decide⟩

/-- Claim C5, amended: the planner and executor line-level logics compute
the same resulting key and value, and the same deletion decision, for rules
whose action list is a single action whose regex mapping (when the action is
modify_value) is empty, on values that strip to themselves.  (In general the
two disagree: the planner sorts actions by priority, applies the regex list
only when the direct map misses, and replaces the whole value for patterns
without capturing groups; the executor does none of these.) -/
theorem C5_single_action_agreement (E : RegexEngine) (key value : String) (a : MAction)
    (hv : pyStrip value = value)
    (hrx : a.type = "modify_value" → a.regex_mapping = []) :
    plannerLineOutcome E key value [a] = execLineOutcome E key value [a] := by
  by_cases hd : a.type = "delete"
  · simp [plannerLineOutcome, execLineOutcome, applyActions, apply_action, hd]
  · by_cases hr : a.type = "retain"
    · simp [plannerLineOutcome, execLineOutcome, applyActions, apply_action, hr, hv]
    · by_cases hm : a.type = "modify_value"
      · have hre := hrx hm
        cases hlk : a.value_mapping.lookup value <;>
          simp [plannerLineOutcome, execLineOutcome, applyActions, apply_action,
            plannerFold, stableSortByKey, insertByKey, plannerStep, plannerRegexApply,
            execRegexApply, hd, hr, hm, hre, hv, hlk]
      · by_cases hap : a.type = "append_after"
        · simp [plannerLineOutcome, execLineOutcome, applyActions, apply_action,
            plannerFold, stableSortByKey, insertByKey, plannerStep, hap, hd, hr, hm, hv]
        · by_cases hrn : a.type = "rename"
          · simp [plannerLineOutcome, execLineOutcome, applyActions, apply_action,
              plannerFold, stableSortByKey, insertByKey, plannerStep, hrn, hd, hr, hm, hap, hv]
          · simp [plannerLineOutcome, execLineOutcome, applyActions, apply_action,
              plannerFold, stableSortByKey, insertByKey, plannerStep, hd, hr, hm, hap, hrn, hv]

/-- Claim C5, witness: the amended agreement at a concrete delete action. -/
theorem C5_witness :
    pyStrip "v" = "v" ∧
    plannerLineOutcome trivialEngine "k" "v" [{ type := "delete" }] =
      execLineOutcome trivialEngine "k" "v" [{ type := "delete" }] :=
  ⟨by decide, C5_single_action_agreement trivialEngine "k" "v" { type := "delete" }
    (by decide) (by decide)⟩

/-! ## Claim C7: rule resolution for a metadata field. -/

/-- A rule configuration with a one-letter key before its extension, for
the C7 instance. -/
def rulesC7 : List (String × MRule) :=
  [("t", { actions := [{ type := "delete" }] }),
   ("tag", { actions := [{ type := "retain" }] })]

/-- Claim C7, counterexample: for the field key tag the configuration holds
an exact rule key tag, yet the code resolves to the earlier configured
prefix key t and emits its delete task; the spec-modelled exact-or-longest
resolution picks tag, whose sole retain action emits nothing. -/
theorem C7_counterexample :
    firstPrefixRuleKey rulesC7 "tag" = some "t" ∧
    specResolveRuleKey rulesC7 "tag" = some "tag" ∧
    firstPrefixRuleKey rulesC7 "tag" ≠ specResolveRuleKey rulesC7 "tag" ∧
    process_metadata_line trivialEngine rulesC7 [] "tag: x" =
      [{ type := "TRANSFORM_METADATA", key := "tag", action := "delete", file := [] }] :=
  ⟨by decide, by decide, by decide, by decide⟩

/-- Claim C7, amended: the applicable rule is the first configured rule key,
in configuration order, that is a prefix of the field key (not the exact or
longest match); a field key no rule key is a prefix of produces no task. -/
theorem C7_first_prefix_resolution (E : RegexEngine) (file : FPath) (line key rawv : String)
    (hpk : partitionKV line = some (key, rawv)) :
    (∀ rules : List (String × MRule), (∀ p ∈ rules, pyStartsWith key p.1 = false) →
      process_metadata_line E rules file line = []) ∧
    (∀ (pre post : List (String × MRule)) (rk : String) (r : MRule),
      (∀ p ∈ pre, pyStartsWith key p.1 = false) → pyStartsWith key rk = true →
      process_metadata_line E (pre ++ (rk, r) :: post) file line =
        ruleTasks E file key (pyStrip rawv) r) := by
  constructor
  · intro rules hnone
    have hflt : rules.filter (fun p => pyStartsWith key p.1) = [] := by
      rw [List.filter_eq_nil_iff]
      intro p hp
      simp [hnone p hp]
    simp only [process_metadata_line, hpk, hflt]
  · intro pre post rk r hpre hrk
    have hfp : pre.filter (fun p => pyStartsWith key p.1) = [] := by
      rw [List.filter_eq_nil_iff]
      intro p hp
      simp [hpre p hp]
    simp only [process_metadata_line, hpk, List.filter_append, hfp, List.nil_append,
      List.filter_cons]
    simp [hrk]

/-- Claim C7, witness: the amended resolution at the concrete C7 rules. -/
theorem C7_witness :
    partitionKV "tag: x" = some ("tag", "x") ∧
    process_metadata_line trivialEngine ([] ++ ("t", { actions := [{ type := "delete" }] }) ::
        [("tag", { actions := [{ type := "retain" }] })]) [] "tag: x" =
      ruleTasks trivialEngine [] "tag" (pyStrip "x") { actions := [{ type := "delete" }] } :=
  ⟨by decide,
    (C7_first_prefix_resolution trivialEngine [] "tag: x" "tag" "x" (by decide)).2
      [] [("tag", { actions := [{ type := "retain" }] })] "t"
      { actions := [{ type := "delete" }] } (by simp) (by decide)⟩

/-! ## Claim C8: task status transitions. -/

/-- Claim C8: execute_task sends every attempted task to done or fail, and
leaves a task that is already done or failed untouched, with no filesystem
effect and no raised exception.  Hence over any sequence of execute_task
calls a status only moves forward into done or fail and a finished task is
never re-attempted. -/
theorem C8_status_transitions (E : RegexEngine) (cfg : Config) (t : Task) (fs : FSnap) :
    ((execute_task E cfg t fs).1.status = some "done" ∨
      (execute_task E cfg t fs).1.status = some "fail") ∧
    ((t.status = some "done" ∨ t.status = some "fail") →
      execute_task E cfg t fs = (t, fs, none)) := by
  unfold execute_task
  by_cases h : (t.status == some "done" || t.status == some "fail") = true
  · constructor
    · simp only [h, if_true]
      rcases Bool.or_eq_true_iff.mp h with h1 | h1
      · exact Or.inl (beq_iff_eq.mp h1)
      · exact Or.inr (beq_iff_eq.mp h1)
    · intro _
      simp only [h, if_true]
  · simp only [h, if_false]
    constructor
    · cases performEffect E cfg fs t <;> simp
    · intro hst
      exfalso
      apply h
      rcases hst with h1 | h1 <;> simp [h1]

/-- Claim C8, witness: a task already done is returned untouched. -/
theorem C8_witness :
    (({ type := "RENAME_MD", src := ["a.md"], status := some "done" } : Task).status =
        some "done" ∨
      ({ type := "RENAME_MD", src := ["a.md"], status := some "done" } : Task).status =
        some "fail") ∧
    execute_task trivialEngine {} { type := "RENAME_MD", src := ["a.md"], status := some "done" }
        {} =
      ({ type := "RENAME_MD", src := ["a.md"], status := some "done" }, {}, none) :=
  ⟨Or.inl rfl,
    (C8_status_transitions trivialEngine {}
      { type := "RENAME_MD", src := ["a.md"], status := some "done" } {}).2 (Or.inl rfl)⟩

/-! ## Claim C1: exceptions during task execution. -/

/-- A rename task whose source file is missing, for the C1 instance. -/
def taskFailC1 : Task :=
  { type := "RENAME_MD", src := ["a.md"], dest := ["b.md"], status := some "todo" }

/-- A rename task whose source file exists, for the C1 instance. -/
def taskOkC1 : Task :=
  { type := "RENAME_MD", src := ["c.md"], dest := ["d.md"], status := some "todo" }

/-- The filesystem for the C1 instance: only the second source exists. -/
def fsC1 : FSnap := { files := [(["c.md"], "hello")] }

/-- Claim C1, counterexample: no stop-on-error configuration flag exists (a
Config carries none), yet when the first task raises, execute_tasks
propagates the exception immediately: the second, independent task is left
untouched in status todo and its rename never happens.  This refutes the
claim that the batch continues unless such a flag is set. -/
theorem C1_counterexample :
    execute_tasks trivialEngine {} [taskFailC1, taskOkC1] fsC1 =
      ([{ taskFailC1 with status := some "fail" }, taskOkC1], fsC1, some "FileNotFoundError") ∧
    taskOkC1.status = some "todo" ∧
    (execute_tasks trivialEngine {} [taskFailC1, taskOkC1] fsC1).2.1.isFile ["d.md"] = false :=
  ⟨by decide, by decide, by decide⟩

/-- Claim C1, amended: an exception during a task effect marks that task
fail and the error is reported, but the exception always propagates out of
the execution loop: every task after the failing one is left with its prior
status and the filesystem untouched.  The script has no stop-on-error flag;
abort-on-first-error is the only behaviour. -/
theorem C1_exception_aborts_batch (E : RegexEngine) (cfg : Config) (t : Task)
    (rest : List Task) (fs : FSnap) (e : String)
    (h1 : t.status ≠ some "done") (h2 : t.status ≠ some "fail")
    (heff : performEffect E cfg fs t = .error e) :
    executeSeq E cfg (t :: rest) fs =
      ({ t with status := some "fail" } :: rest, fs, some e) := by
  unfold executeSeq execute_task
  simp [h1, h2, heff]

/-- Claim C1, witness: the amended abort behaviour at the concrete failing
rename. -/
theorem C1_witness :
    taskFailC1.status ≠ some "done" ∧ taskFailC1.status ≠ some "fail" ∧
    performEffect trivialEngine {} fsC1 taskFailC1 = .error "FileNotFoundError" ∧
    executeSeq trivialEngine {} [taskFailC1, taskOkC1] fsC1 =
      ({ taskFailC1 with status := some "fail" } :: [taskOkC1], fsC1, some "FileNotFoundError") :=
  ⟨by decide, by decide, rfl,
    C1_exception_aborts_batch trivialEngine {} taskFailC1 [taskOkC1] fsC1 "FileNotFoundError"
      (by decide) (by decide) rfl⟩

/-! ## Claim C4: the planning phase and the filesystem. -/

/-- A filesystem without the resource directory, for the C4 instance. -/
def fsC4 : FSnap := { files := [(["root", "doc.md"], "hello")], dirs := [["root"]] }

/-- Claim C4, counterexample: scan_directory creates the resource directory
during planning (mkdir with exist_ok at line 873), so the filesystem after
scanning differs from the filesystem before whenever that directory did not
already exist. -/
theorem C4_counterexample :
    (scan_directory trivialEngine fsC4 ["root"] "Resource" {}).2.1 ≠ fsC4 :=
  by decide

/-- Claim C4, amended: planning performs exactly one filesystem mutation,
creating the resource directory; the filesystem scan_directory returns is
the input plus that directory, and when the directory already exists the
filesystem is returned unchanged.  Every other planning component only
reads. -/
theorem C4_planning_frame (E : RegexEngine) (fs : FSnap) (directory : FPath)
    (aop : String) (cfg : Config) :
    (scan_directory E fs directory aop cfg).2.1 = fs.mkdirP (directory ++ [aop]) ∧
    (fs.dirs.contains (directory ++ [aop]) = true →
      (scan_directory E fs directory aop cfg).2.1 = fs) := by
  refine ⟨rfl, fun h => ?_⟩
  show fs.mkdirP (directory ++ [aop]) = fs
  unfold FSnap.mkdirP
  rw [h]
  rfl

/-- Claim C4, witness: when the resource directory already exists the
filesystem comes back unchanged. -/
theorem C4_witness :
    ((({ files := [], dirs := [["root"], ["root", "Resource"]] } : FSnap).dirs.contains
        ((["root"] : FPath) ++ ["Resource"])) = true) ∧
    (scan_directory trivialEngine { files := [], dirs := [["root"], ["root", "Resource"]] }
        ["root"] "Resource" {}).2.1 =
      { files := [], dirs := [["root"], ["root", "Resource"]] } :=
  ⟨by decide,
    (C4_planning_frame trivialEngine { files := [], dirs := [["root"], ["root", "Resource"]] }
      ["root"] "Resource" {}).2 (by decide)⟩

/-! ## Claim C9: the unmapped-metadata registry. -/

/-- The C9 rule set: a modify_value rule whose direct map covers only the
value Done. -/
def rulesC9 : List (String × MRule) :=
  [("Status", { actions := [{ type := "modify_value", value_mapping := [("Done", "done")] }] })]

/-- The C9 configuration. -/
def cfgC9 : Config := { metadata_rules := rulesC9 }

/-- The C9 filesystem: one document whose Status value Weird is not covered
by the direct map. -/
def fsC9 : FSnap :=
  { files := [(["root", "doc.md"], "Status: Weird\n\nbody")], dirs := [["root"]] }

/-- Claim C9: the scan never records unmapped metadata.  At a scan whose
document carries the uncovered value Weird, the registry surfaced to
reporting is still empty, because validate_metadata_mappings, the only
function that records, has no call site in the script (and it would write a
different dictionary than the one reporting reads).  Had it been called on
the document metadata, it would have recorded the pair, as the second
conjunct shows, which is what the claim describes. -/
theorem C9_registry_stays_empty :
    (scan_directory trivialEngine fsC9 ["root"] "Resource" cfgC9).2.2 = [] ∧
    validate_metadata_mappings rulesC9 ["Status: Weird"] initialize_scan_stats_unmapped =
      [("Status", ["Weird"])] :=
  ⟨rfl, by decide⟩

/-! ## Claim C10: comment removal and the frame after the first blank line. -/

/-- Claim C10: executing a TransformMetadata task rewrites only the lines
before the first blank line (all later lines, the blank included, are
written back verbatim), and within that region comment lines are dropped
and have no influence on the output whatever the rules: transforming a
region equals transforming the region with its comment lines removed. -/
theorem C10_comment_removal_and_frame (E : RegexEngine) (rules : List (String × MRule))
    (content : List String) :
    map_metadata E rules content =
      transform_metadata E rules (content.take (firstBlankIdx content)) ++
        content.drop (firstBlankIdx content) ∧
    ∀ lines : List String,
      transform_metadata E rules lines =
        transform_metadata E rules (lines.filter (fun l => !isCommentLine l)) := by
  refine ⟨rfl, fun lines => ?_⟩
  induction lines with
  | nil => rfl
  | cons l rest ih =>
    by_cases h : isCommentLine l = true
    · simp only [List.filter_cons, h, Bool.not_true, if_false]
      simp only [transform_metadata, h, if_true]
      exact ih
    · have hb : isCommentLine l = false := by
        cases hc : isCommentLine l
        · rfl
        · exact absurd hc h
      simp only [List.filter_cons, hb, Bool.not_false, if_true]
      simp only [transform_metadata, hb, Bool.false_eq_true, if_false]
      cases hp : partitionKV l with
      | none => simp only [hp]; rw [ih]
      | some kv =>
        obtain ⟨k, v⟩ := kv
        simp only [hp]
        cases hlk : rules.lookup k with
        | none => rw [ih]
        | some r =>
          cases ho : execLineOutcome E k v r.actions with
          | none => rw [ih]
          | some p => rw [ih]

/-! ## Claim C2: cleanup gating for attachment directories. -/

/-- Cleanup-task test. -/
def isCleanupTask (t : Task) : Bool := t.type == "CLEANUP"

/-- Move-task test. -/
def isMoveTask (t : Task) : Bool := t.type == "MOVE_ATTACHMENT"

/-- Invariant of the reference loop of scan_attachments: the moved counter
counts exactly the move tasks generated so far, and every generated task is
a move or copy whose destination lies in the resource directory. -/
def attInv (res : FPath) (st : AttState) : Prop :=
  st.moved = (st.tasks.filter isMoveTask).length ∧
  ∀ t ∈ st.tasks, (t.type = "MOVE_ATTACHMENT" ∨ t.type = "COPY_ATTACHMENT") ∧
    t.dest.dropLast = res

/-- One step of the reference loop preserves the loop invariant. -/
theorem processRef_inv (fs : FSnap) (op dir res : FPath) (ad : Option FPath)
    (st : AttState) (ref : String) (hinv : attInv res st) :
    attInv res (processRef fs op dir res ad st ref) := by
  obtain ⟨hm, hs⟩ := hinv
  unfold processRef
  dsimp only
  split_ifs with h1 h2 h3 h4
  · exact ⟨hm, hs⟩
  · exact ⟨hm, hs⟩
  · -- move branch
    refine ⟨?_, ?_⟩
    · simp only [List.filter_append, List.length_append, hm]
      simp [isMoveTask]
    · intro t ht
      rcases List.mem_append.mp ht with h | h
      · exact hs t h
      · rcases List.mem_singleton.mp h with rfl
        exact ⟨Or.inl rfl, List.dropLast_concat⟩
  · -- copy branch
    refine ⟨?_, ?_⟩
    · simp only [List.filter_append, List.length_append, hm]
      simp [isMoveTask]
    · intro t ht
      rcases List.mem_append.mp ht with h | h
      · exact hs t h
      · rcases List.mem_singleton.mp h with rfl
        exact ⟨Or.inr rfl, List.dropLast_concat⟩
  · exact ⟨hm, hs⟩

/-- The whole reference loop preserves the loop invariant. -/
theorem foldl_processRef_inv (fs : FSnap) (op dir res : FPath) (ad : Option FPath) :
    ∀ (refs : List String) (st : AttState), attInv res st →
      attInv res (refs.foldl (processRef fs op dir res ad) st) := by
  intro refs
  induction refs with
  | nil => intro st h; exact h
  | cons r rs ih => intro st h; exact ih _ (processRef_inv fs op dir res ad st r h)

/-- The shape of scan_attachments once the early returns are ruled out. -/
theorem scan_attachments_eq (fs : FSnap) (p directory resource_dir : FPath)
    (hc : (fs.readFile p == "") = false) (hl : (localRefsOf fs p).isEmpty = false) :
    scan_attachments fs p directory resource_dir =
      (let st := (localRefsOf fs p).foldl
        (processRef fs p directory resource_dir (find_attachment_dir fs p)) {}
      (st.mapping,
        match find_attachment_dir fs p with
        | some ad =>
          if fs.pathExists ad then
            if st.moved == (fs.children ad).length then
              st.tasks ++ [{ type := "CLEANUP", dest := ad }]
            else st.tasks
          else st.tasks
        | none => st.tasks)) := by
  unfold scan_attachments
  simp only [hc, hl, Bool.false_eq_true, if_false]

/-- Claim C2, amended: a Cleanup task for the matched attachment directory
is emitted exactly when the moved-file count (the number of planned move
tasks) equals the number of entries of the directory; when some files
remain unmapped the planner emits no task for the directory at all: there
is no move-to-trash fallback, every non-cleanup task scan_attachments
generates is a move or copy into the resource directory, and the directory
is simply left in place. -/
theorem C2_cleanup_gating (fs : FSnap) (p directory resource_dir : FPath)
    (hc : (fs.readFile p == "") = false) (hl : (localRefsOf fs p).isEmpty = false) :
    (match find_attachment_dir fs p with
     | some ad =>
        if fs.pathExists ad &&
            ((scan_attachments fs p directory resource_dir).2.filter isMoveTask).length ==
              (fs.children ad).length then
          (scan_attachments fs p directory resource_dir).2.filter isCleanupTask =
            [{ type := "CLEANUP", dest := ad }]
        else
          (scan_attachments fs p directory resource_dir).2.filter isCleanupTask = []
     | none => (scan_attachments fs p directory resource_dir).2.filter isCleanupTask = []) ∧
    ∀ t ∈ (scan_attachments fs p directory resource_dir).2, isCleanupTask t = false →
      (t.type = "MOVE_ATTACHMENT" ∨ t.type = "COPY_ATTACHMENT") ∧
        t.dest.dropLast = resource_dir := by
  rw [scan_attachments_eq fs p directory resource_dir hc hl]
  dsimp only
  set st := (localRefsOf fs p).foldl
    (processRef fs p directory resource_dir (find_attachment_dir fs p)) {} with hstdef
  have hinit : attInv resource_dir {} := by
    constructor
    · rfl
    · intro t ht; cases ht
  have hinv := foldl_processRef_inv fs p directory resource_dir (find_attachment_dir fs p)
    (localRefsOf fs p) {} hinit
  rw [← hstdef] at hinv
  obtain ⟨hmoved, hshape⟩ := hinv
  have hclean : st.tasks.filter isCleanupTask = [] := by
    rw [List.filter_eq_nil_iff]
    intro t ht
    rcases (hshape t ht).1 with h | h <;> simp [isCleanupTask, h]
  rcases hfd : find_attachment_dir fs p with _ | ad
  · -- no attachment directory
    simp only [hfd]
    refine ⟨hclean, ?_⟩
    intro t ht _
    exact hshape t ht
  · simp only [hfd]
    by_cases hex : fs.pathExists ad = true
    · by_cases hcnt : (st.moved == (fs.children ad).length) = true
      · -- cleanup emitted
        simp only [hex, hcnt, if_true]
        have hfc : (st.tasks ++ [({ type := "CLEANUP", dest := ad } : Task)]).filter
            isCleanupTask = [{ type := "CLEANUP", dest := ad }] := by
          rw [List.filter_append, hclean]
          rfl
        have hfm : (st.tasks ++ [({ type := "CLEANUP", dest := ad } : Task)]).filter
            isMoveTask = st.tasks.filter isMoveTask := by
          rw [List.filter_append]
          simp [isMoveTask]
        constructor
        · have hcond : (((st.tasks ++ [({ type := "CLEANUP", dest := ad } : Task)]).filter
              isMoveTask).length == (fs.children ad).length) = true := by
            rw [hfm, ← hmoved]
            exact hcnt
          simp only [hcond, Bool.and_true, hex, if_true]
          exact hfc
        · intro t ht hnc
          rcases List.mem_append.mp ht with h | h
          · exact hshape t h
          · rcases List.mem_singleton.mp h with rfl
            simp [isCleanupTask] at hnc
      · -- counts differ: no task at all for the directory
        have hcnt' : (st.moved == (fs.children ad).length) = false :=
          Bool.eq_false_iff.mpr (fun hcon => hcnt hcon)
        simp only [hex, hcnt', Bool.false_eq_true, if_true, if_false]
        constructor
        · have hcond : ((st.tasks.filter isMoveTask).length == (fs.children ad).length)
              = false := by
            rw [← hmoved]
            exact hcnt'
          simp only [hcond, Bool.and_false, Bool.false_eq_true, if_false]
          exact hclean
        · intro t ht _
          exact hshape t ht
    · -- attachment directory does not exist
      have hex' : fs.pathExists ad = false := by
        cases hpe : fs.pathExists ad
        · rfl
        · exact absurd hpe hex
      simp only [hex', Bool.false_eq_true, if_false, Bool.false_and]
      refine ⟨hclean, ?_⟩
      intro t ht _
      exact hshape t ht

/-- The 32-hex document identifier used by the concrete scan instances. -/
def uidX : String := "0123456789abcdef0123456789abcdef"

/-- Document file name carrying the identifier. -/
def docNameX : String := "Doc " ++ uidX ++ ".md"

/-- Matching attachment directory name. -/
def adNameX : String := "Doc " ++ uidX

/-- The C2 filesystem: the attachment directory holds three files but the
document references only two of them. -/
def fsC2 : FSnap :=
  { files := [(["root", docNameX],
               "![a](Doc%20" ++ uidX ++ "/a.png) ![b](Doc%20" ++ uidX ++ "/b.png)"),
              (["root", adNameX, "a.png"], "x"),
              (["root", adNameX, "b.png"], "y"),
              (["root", adNameX, "c.png"], "z")],
    dirs := [["root"], ["root", adNameX], ["root", "Resource"]] }

/-- Claim C2, counterexample: with three files in the matched directory and
only two mapped, the planner emits the two move tasks and nothing else - no
Cleanup task, but also no task of any kind that touches the attachment
directory itself: there is no move-to-holding/trash fallback in the code. -/
theorem C2_counterexample :
    (fsC2.children ["root", adNameX]).length = 3 ∧
    ((scan_attachments fsC2 ["root", docNameX] ["root"] ["root", "Resource"]).2.filter
      isMoveTask).length = 2 ∧
    (scan_attachments fsC2 ["root", docNameX] ["root"] ["root", "Resource"]).2.filter
      isCleanupTask = [] ∧
    ((scan_attachments fsC2 ["root", docNameX] ["root"] ["root", "Resource"]).2.all
      (fun t => t.src != (["root", adNameX] : FPath) && t.dest != (["root", adNameX] : FPath)))
      = true :=
  ⟨by decide, by decide, by decide, by decide⟩

/-- The C2 witness filesystem: all three directory files are referenced. -/
def fsC2all : FSnap :=
  { files := [(["root", docNameX],
               "![a](Doc%20" ++ uidX ++ "/a.png) ![b](Doc%20" ++ uidX ++ "/b.png) " ++
               "![c](Doc%20" ++ uidX ++ "/c.png)"),
              (["root", adNameX, "a.png"], "x"),
              (["root", adNameX, "b.png"], "y"),
              (["root", adNameX, "c.png"], "z")],
    dirs := [["root"], ["root", adNameX], ["root", "Resource"]] }

set_option maxRecDepth 100000 in
/-- Claim C2, witness: the gating theorem at the fully mapped instance. -/
theorem C2_witness :
    ((fsC2all.readFile ["root", docNameX] == "") = false) ∧
    ((localRefsOf fsC2all ["root", docNameX]).isEmpty = false) ∧
    ((match find_attachment_dir fsC2all ["root", docNameX] with
      | some ad =>
         if fsC2all.pathExists ad &&
             ((scan_attachments fsC2all ["root", docNameX] ["root"] ["root", "Resource"]).2.filter
               isMoveTask).length == (fsC2all.children ad).length then
           (scan_attachments fsC2all ["root", docNameX] ["root"] ["root", "Resource"]).2.filter
             isCleanupTask = [{ type := "CLEANUP", dest := ad }]
         else
           (scan_attachments fsC2all ["root", docNameX] ["root"] ["root", "Resource"]).2.filter
             isCleanupTask = []
      | none => (scan_attachments fsC2all ["root", docNameX] ["root"] ["root", "Resource"]).2.filter
          isCleanupTask = []) ∧
     ∀ t ∈ (scan_attachments fsC2all ["root", docNameX] ["root"] ["root", "Resource"]).2,
       isCleanupTask t = false →
       (t.type = "MOVE_ATTACHMENT" ∨ t.type = "COPY_ATTACHMENT") ∧
         t.dest.dropLast = (["root", "Resource"] : FPath)) :=
  ⟨by decide, by decide,
    C2_cleanup_gating fsC2all ["root", docNameX] ["root"] ["root", "Resource"]
      (by decide) (by decide)⟩

/-! ## Claim C3: destination name for a single local attachment. -/

/-- The C3 filesystem: the document references exactly one attachment,
living in its matched attachment directory. -/
def fsC3 : FSnap :=
  { files := [(["root", docNameX], "![x](Doc%20" ++ uidX ++ "/img.png)"),
              (["root", adNameX, "img.png"], "binary")],
    dirs := [["root"], ["root", adNameX], ["root", "Resource"]] }

/-- Claim C3, counterexample: the document stem after stripping the
identifier is Doc, so the claim predicts the destination name Doc.png; the
code instead names the single attachment with the full unstripped stem and
the pattern stem_originalname. -/
theorem C3_counterexample :
    (localRefsOf fsC3 ["root", docNameX]).length = 1 ∧
    ((scan_attachments fsC3 ["root", docNameX] ["root"] ["root", "Resource"]).2.head?).map
        (fun t => pathName t.dest) = some ("Doc " ++ uidX ++ "_img.png") ∧
    stripUID (splitStemExt docNameX).1 ++ ".png" = "Doc.png" ∧
    ("Doc " ++ uidX ++ "_img.png" : String) ≠ "Doc.png" :=
  ⟨by decide, by decide, by decide, by decide⟩

/-- The last component of a path extended by one component. -/
theorem pathName_concat (l : FPath) (x : String) : pathName (l ++ [x]) = x := by
  unfold pathName
  rw [List.getLast?_concat]
  rfl

/-- Claim C3, amended: for a document whose only local reference resolves
to an existing file with a supported extension, the planned destination name
uses the document's full stem, with the identifier suffix not stripped: the
name is stem_originalname for an attachment inside the matched attachment
directory, and the stem plus the original extension, without a sequence
number, for an attachment elsewhere, provided that name is unused in the
resource directory. -/
theorem C3_single_attachment_name (fs : FSnap) (p directory resource_dir : FPath) (ref : String)
    (hc : (fs.readFile p == "") = false)
    (hl : localRefsOf fs p = [ref])
    (hfile : fs.isFile (refPathOf directory ref) = true)
    (hsup : supported_extensions.contains
      (pyLower (splitStemExt (pathName (refPathOf directory ref))).2) = true)
    (hfree : fs.pathExists (resource_dir ++
      [(splitStemExt (pathName p)).1 ++
        (splitStemExt (pathName (refPathOf directory ref))).2]) = false) :
    ((scan_attachments fs p directory resource_dir).2.filter
        (fun t => isMoveTask t || t.type == "COPY_ATTACHMENT")).map (fun t => pathName t.dest) =
      [match find_attachment_dir fs p with
       | some ad =>
         if (refPathOf directory ref).dropLast == ad then
           (splitStemExt (pathName p)).1 ++ "_" ++ pathName (refPathOf directory ref)
         else
           (splitStemExt (pathName p)).1 ++ (splitStemExt (pathName (refPathOf directory ref))).2
       | none =>
         (splitStemExt (pathName p)).1 ++ (splitStemExt (pathName (refPathOf directory ref))).2] := by
  have hl' : (localRefsOf fs p).isEmpty = false := by rw [hl]; rfl
  rw [scan_attachments_eq fs p directory resource_dir hc hl']
  dsimp only
  rw [hl]
  simp only [List.foldl_cons, List.foldl_nil]
  unfold processRef
  dsimp only
  have hprobe : (!(fs.isFile (refPathOf directory ref) || fs.isDir (refPathOf directory ref)))
      = false := by
    rw [hfile]
    rfl
  have hsup' : (!supported_extensions.contains
      (pyLower (splitStemExt (pathName (refPathOf directory ref))).2)) = false := by
    rw [hsup]
    rfl
  simp only [hprobe, Bool.false_eq_true, if_false]
  simp only [hfile, if_true]
  simp only [hsup', Bool.false_eq_true, if_false]
  rcases hfd : find_attachment_dir fs p with _ | ad
  · -- no attachment directory: copy branch, no cleanup possible
    simp only [hfd]
    rw [attachNameLoop]
    simp only [hfree, Bool.false_eq_true, if_false]
    simp [isMoveTask, pathName_concat]
  · simp only [hfd]
    by_cases hin : ((refPathOf directory ref).dropLast == ad) = true
    · -- move branch
      simp only [hin, if_true]
      split_ifs <;> simp [isMoveTask, isCleanupTask, pathName_concat]
    · -- copy branch under a found attachment directory
      have hin' : ((refPathOf directory ref).dropLast == ad) = false :=
        Bool.eq_false_iff.mpr (fun hcon => hin hcon)
      simp only [hin', Bool.false_eq_true, if_false]
      rw [attachNameLoop]
      simp only [hfree, Bool.false_eq_true, if_false]
      split_ifs <;> simp [isMoveTask, isCleanupTask, pathName_concat]

set_option maxRecDepth 100000 in
/-- Claim C3, witness: the amended naming at the concrete single-attachment
document. -/
theorem C3_witness :
    ((fsC3.readFile ["root", docNameX] == "") = false) ∧
    localRefsOf fsC3 ["root", docNameX] = ["Doc%20" ++ uidX ++ "/img.png"] ∧
    ((scan_attachments fsC3 ["root", docNameX] ["root"] ["root", "Resource"]).2.filter
        (fun t => isMoveTask t || t.type == "COPY_ATTACHMENT")).map (fun t => pathName t.dest) =
      [match find_attachment_dir fsC3 ["root", docNameX] with
       | some ad =>
         if (refPathOf ["root"] ("Doc%20" ++ uidX ++ "/img.png")).dropLast == ad then
           (splitStemExt (pathName (["root", docNameX] : FPath))).1 ++ "_" ++
             pathName (refPathOf ["root"] ("Doc%20" ++ uidX ++ "/img.png"))
         else
           (splitStemExt (pathName (["root", docNameX] : FPath))).1 ++
             (splitStemExt (pathName (refPathOf ["root"] ("Doc%20" ++ uidX ++ "/img.png")))).2
       | none =>
         (splitStemExt (pathName (["root", docNameX] : FPath))).1 ++
           (splitStemExt (pathName (refPathOf ["root"] ("Doc%20" ++ uidX ++ "/img.png")))).2] :=
  ⟨by decide, by decide,
    C3_single_attachment_name fsC3 ["root", docNameX] ["root"] ["root", "Resource"]
      ("Doc%20" ++ uidX ++ "/img.png") (by decide) (by decide) (by decide) (by decide)
      (by decide)⟩

/-! ## Claim C6: rename destinations, identifier stripping and conflict
counters. -/

/-- Rebuilding a string from its characters is the identity. -/
theorem strMk_toList (s : String) : String.mk s.toList = s := by
  cases s
  rfl

/-- Characters of an appended string. -/
theorem strToList_append (a b : String) : (a ++ b).toList = a.toList ++ b.toList := by
  cases a
  cases b
  rfl

/-- The rightmost dot of a name extended with the document extension is the
dot of the extension. -/
theorem lastDotIdx_concat_md (xs : List Char) :
    lastDotIdx (xs ++ ['.', 'm', 'd']) = some xs.length := by
  induction xs with
  | nil => decide
  | cons x xs ih =>
    simp only [List.cons_append, lastDotIdx, List.append_eq, ih, List.length_cons]

/-- Stem and suffix of a name carrying the document extension. -/
theorem splitStemExt_concat_md (s : String) (hs : s.toList ≠ []) :
    splitStemExt (s ++ ".md") = (s, ".md") := by
  unfold splitStemExt
  have htl : (s ++ ".md").toList = s.toList ++ ['.', 'm', 'd'] := by
    rw [strToList_append]
    rfl
  rw [htl]
  dsimp only
  rw [lastDotIdx_concat_md]
  dsimp only
  have hpos : 0 < s.toList.length := List.length_pos.mpr hs
  have hlt : s.toList.length < (s.toList ++ ['.', 'm', 'd']).length - 1 := by
    simp only [List.length_append, List.length_cons, List.length_nil]
    omega
  rw [if_pos ⟨hpos, hlt⟩]
  rw [List.take_left, List.drop_left]
  rw [strMk_toList]

/-- Stripping the identifier suffix recovers the document name verbatim. -/
theorem stripUID_concat (name h : String) (hlen : h.toList.length = 32)
    (hword : h.toList.all isWordChar = true) :
    stripUID (name ++ " " ++ h) = name := by
  unfold stripUID
  have htl : (name ++ " " ++ h).toList = (name.toList ++ [' ']) ++ h.toList := by
    rw [strToList_append, strToList_append]
    rfl
  rw [htl]
  dsimp only
  have hlen2 : ((name.toList ++ [' ']) ++ h.toList).length = name.toList.length + 33 := by
    simp only [List.length_append, List.length_cons, List.length_nil, hlen]
  rw [hlen2]
  rw [if_pos (by omega : 33 ≤ name.toList.length + 33)]
  have hdrop : ((name.toList ++ [' ']) ++ h.toList).drop (name.toList.length + 33 - 32) =
      h.toList := by
    have h32 : name.toList.length + 33 - 32 = (name.toList ++ [' ']).length := by
      simp only [List.length_append, List.length_cons, List.length_nil]
      omega
    rw [h32, List.drop_left]
  have hget : (((name.toList ++ [' ']) ++ h.toList).get? (name.toList.length + 33 - 33)).getD ' '
      = ' ' := by
    have h33 : name.toList.length + 33 - 33 = name.toList.length := by omega
    rw [h33]
    rw [List.get?_append (by simp : name.toList.length < (name.toList ++ [' ']).length)]
    rw [List.get?_append_right (le_refl _)]
    simp
  rw [hdrop, hword, hget]
  simp only [beq_self_eq_true, Bool.and_true, if_true]
  have htake : ((name.toList ++ [' ']) ++ h.toList).take (name.toList.length + 33 - 33) =
      name.toList := by
    have h33 : name.toList.length + 33 - 33 = name.toList.length := by omega
    rw [h33, List.append_assoc, List.take_left]
  rw [htake, strMk_toList]

/-- The names the rename collision loop tries for a base: the base itself,
then the base with increasing underscore counters. -/
def rename_candidate (base : String) (i : Nat) : String :=
  if i == 0 then base else base ++ "_" ++ toString i

/-- Candidates of a nonempty base are nonempty. -/
theorem rename_candidate_ne_nil (base : String) (hb : base.toList ≠ []) (i : Nat) :
    (rename_candidate base i).toList ≠ [] := by
  cases i with
  | zero => simpa [rename_candidate] using hb
  | succ n =>
    have hc : rename_candidate base (n + 1) = base ++ "_" ++ toString (n + 1) := by
      unfold rename_candidate
      simp
    rw [hc, strToList_append, strToList_append]
    intro hcon
    rcases List.append_eq_nil.mp hcon with ⟨h1, _⟩
    rcases List.append_eq_nil.mp h1 with ⟨hb', _⟩
    exact hb hb'

/-- The collision loop of generate_rename_markdown_task reaches the first
free candidate: if the used list contains exactly the candidates below k,
starting the loop at candidate j with enough fuel returns candidate k. -/
theorem renameLoop_reaches (used : List String) (base : String) (k : Nat)
    (hmem : ∀ j, j ≤ k → ((used.contains (rename_candidate base j) = true) ↔ j < k)) :
    ∀ d j, j + d = k →
      renameLoop used base (d + 1) (j + 1) (rename_candidate base j) =
        rename_candidate base k := by
  intro d
  induction d with
  | zero =>
    intro j hj
    have hjk : j = k := by omega
    subst hjk
    have hct : used.contains (rename_candidate base j) = false := by
      cases hc : used.contains (rename_candidate base j)
      · rfl
      · exact absurd ((hmem j (le_refl j)).mp hc) (by omega)
    rw [renameLoop, hct]
    rfl
  | succ d ih =>
    intro j hj
    have hjk : j < k := by omega
    have hct : used.contains (rename_candidate base j) = true :=
      (hmem j (by omega)).mpr hjk
    rw [renameLoop, hct]
    simp only [if_true]
    have hcand : base ++ "_" ++ toString (j + 1) = rename_candidate base (j + 1) := by
      unfold rename_candidate
      rw [if_neg (by simp)]
    rw [hcand]
    exact ih (j + 1) (by omega)

/-- The rename task generate_rename_markdown_task appends. -/
def mkRenameTask (s d : FPath) : Task :=
  { type := "RENAME_MD", src := s, dest := d, status := some "todo" }

/-- One step of the rename fold: when every previously planned rename stem
is a candidate below m, the next document stripping to the same base gets
candidate m. -/
theorem generate_rename_step (directory : FPath) (name hx : String) (m : Nat)
    (ts : List Task)
    (hxlen : hx.toList.length = 32) (hxword : hx.toList.all isWordChar = true)
    (hty : ∀ t ∈ ts, t.type = "RENAME_MD")
    (hstems : ts.map (fun t => (splitStemExt (pathName t.dest)).1) =
      (List.range m).map (rename_candidate name))
    (hmem : ∀ j, j ≤ m →
      ((((List.range m).map (rename_candidate name)).contains
        (rename_candidate name j) = true) ↔ j < m)) :
    (generate_rename_markdown_task (directory ++ [name ++ " " ++ hx ++ ".md"])
        directory ts).2 =
      ts ++ [mkRenameTask (directory ++ [name ++ " " ++ hx ++ ".md"])
        (directory ++ [rename_candidate name m ++ ".md"])] := by
  unfold generate_rename_markdown_task
  have hpn : pathName (directory ++ [name ++ " " ++ hx ++ ".md"]) =
      (name ++ " " ++ hx) ++ ".md" :=
    pathName_concat directory (name ++ " " ++ hx ++ ".md")
  have hsplit : splitStemExt ((name ++ " " ++ hx) ++ ".md") = (name ++ " " ++ hx, ".md") := by
    apply splitStemExt_concat_md
    rw [strToList_append, strToList_append]
    simp
  have hbase : stripUID (name ++ " " ++ hx) = name := stripUID_concat name hx hxlen hxword
  have hfilter : ts.filter (fun t => t.type == "RENAME_MD") = ts := by
    rw [List.filter_eq_self]
    intro t ht
    simp [hty t ht]
  have hloop : renameLoop ((List.range m).map (rename_candidate name)) name
      (((List.range m).map (rename_candidate name)).length + 1) 1 name =
      rename_candidate name m := by
    have h0 : rename_candidate name 0 = name := rfl
    have hlen : ((List.range m).map (rename_candidate name)).length = m := by simp
    rw [hlen]
    have := renameLoop_reaches ((List.range m).map (rename_candidate name)) name m hmem m 0
      (by omega)
    rw [h0] at this
    simpa using this
  dsimp only
  rw [hpn, hsplit]
  dsimp only
  rw [hbase, hfilter, hstems, hloop]
  rfl

/-- The inductive core of the C6 argument: folding
generate_rename_markdown_task over documents that all strip to the same
base name appends rename tasks whose destination stems are the successive
candidates. -/
theorem rename_fold_stems (directory : FPath) (name : String) (hname : name.toList ≠ [])
    (N : Nat)
    (hinj : ∀ i, i ≤ N → ∀ j, j ≤ N →
      rename_candidate name i = rename_candidate name j → i = j) :
    ∀ (hexs : List String) (m : Nat) (ts : List Task),
      m + hexs.length ≤ N →
      (∀ h ∈ hexs, h.toList.length = 32 ∧ h.toList.all isWordChar = true) →
      (∀ t ∈ ts, t.type = "RENAME_MD") →
      ts.map (fun t => (splitStemExt (pathName t.dest)).1) =
        (List.range m).map (rename_candidate name) →
      ((hexs.map (fun hx => directory ++ [name ++ " " ++ hx ++ ".md"])).foldl
          (fun acc p => (generate_rename_markdown_task p directory acc).2) ts).map
        (fun t => (splitStemExt (pathName t.dest)).1) =
        (List.range (m + hexs.length)).map (rename_candidate name) := by
  intro hexs
  induction hexs with
  | nil =>
    intro m ts _ _ _ hstems
    simpa using hstems
  | cons hx hxs ih =>
    intro m ts hN hword hty hstems
    simp only [List.map_cons, List.foldl_cons]
    have hxw := hword hx (List.mem_cons_self hx hxs)
    have hmem : ∀ j, j ≤ m →
        ((((List.range m).map (rename_candidate name)).contains
          (rename_candidate name j) = true) ↔ j < m) := by
      intro j hjm
      constructor
      · intro hc
        rcases List.contains_iff_exists_mem_beq.mp hc with ⟨x, hx1, hx2⟩
        rcases List.mem_map.mp hx1 with ⟨i, hi1, hi2⟩
        have hieq : rename_candidate name j = x := beq_iff_eq.mp hx2
        have him : i < m := List.mem_range.mp hi1
        have hN' : m ≤ N := by
          simp only [List.length_cons] at hN
          omega
        have := hinj i (by omega) j (by omega) (by rw [hi2, ← hieq])
        omega
      · intro hjlt
        apply List.contains_iff_exists_mem_beq.mpr
        exact ⟨rename_candidate name j,
          List.mem_map.mpr ⟨j, List.mem_range.mpr hjlt, rfl⟩, beq_self_eq_true _⟩
    rw [generate_rename_step directory name hx m ts hxw.1 hxw.2 hty hstems hmem]
    have hnew : (ts ++ [mkRenameTask (directory ++ [name ++ " " ++ hx ++ ".md"])
        (directory ++ [rename_candidate name m ++ ".md"])]).map
        (fun t => (splitStemExt (pathName t.dest)).1) =
        (List.range (m + 1)).map (rename_candidate name) := by
      rw [List.map_append, hstems, List.range_succ, List.map_append]
      simp only [List.map_cons, List.map_nil, mkRenameTask]
      rw [pathName_concat]
      rw [splitStemExt_concat_md (rename_candidate name m)
        (rename_candidate_ne_nil name hname m)]
    have hich := ih (m + 1)
      (ts ++ [mkRenameTask (directory ++ [name ++ " " ++ hx ++ ".md"])
        (directory ++ [rename_candidate name m ++ ".md"])])
      (by
        simp only [List.length_cons] at hN
        omega)
      (fun h hh => hword h (List.mem_cons_of_mem hx hh))
      (by
        intro t ht
        rcases List.mem_append.mp ht with h1 | h1
        · exact hty t h1
        · rcases List.mem_singleton.mp h1 with rfl
          rfl)
      hnew
    rw [hich]
    have harith : m + 1 + hxs.length = m + (hx :: hxs).length := by
      simp only [List.length_cons]
      omega
    rw [harith]

/-- Hexadecimal-digit test, spelling out the character ranges of the claim
(digits, lower a to f, upper A to F). -/
def isHexDigitChar (c : Char) : Bool :=
  c.isDigit || (c.val ≥ 97 && c.val ≤ 102) || (c.val ≥ 65 && c.val ≤ 70)

/-- Hexadecimal digits are word characters of the identifier regex. -/
theorem isWordChar_of_hex (c : Char) (h : isHexDigitChar c = true) : isWordChar c = true := by
  unfold isHexDigitChar at h
  unfold isWordChar Char.isAlphanum Char.isAlpha Char.isUpper Char.isLower
  simp only [Bool.or_eq_true, Bool.and_eq_true, decide_eq_true_eq, ge_iff_le] at h ⊢
  rcases h with (hd | hlow) | hup
  · exact Or.inr (Or.inr hd)
  · exact Or.inr (Or.inl (Or.inr
      ⟨hlow.1, UInt32.le_trans hlow.2 (by decide : (102 : UInt32) ≤ 122)⟩))
  · exact Or.inr (Or.inl (Or.inl
      ⟨hup.1, UInt32.le_trans hup.2 (by decide : (70 : UInt32) ≤ 90)⟩))

/-- Claim C6: for documents named by a base name, a space, 32 hexadecimal
characters and the document extension, the planned rename destinations
strip exactly that trailing suffix, preserving the base name verbatim; and
N such documents sharing one base name receive, in scan order, the stems
base, base_1, base_2 and so on, each unique among the rename destinations
planned so far.  The injectivity hypothesis states that distinct candidate
names are distinct strings (decidable at any concrete instance). -/
theorem C6_rename_stems (directory : FPath) (name : String) (hexs : List String)
    (hname : name ≠ "")
    (hhex : ∀ h ∈ hexs, h.toList.length = 32 ∧ ∀ c ∈ h.toList, isHexDigitChar c = true)
    (hinj : ∀ i, i ≤ hexs.length → ∀ j, j ≤ hexs.length →
      rename_candidate name i = rename_candidate name j → i = j) :
    ((hexs.map (fun hx => directory ++ [name ++ " " ++ hx ++ ".md"])).foldl
        (fun acc p => (generate_rename_markdown_task p directory acc).2) []).map
      (fun t => (splitStemExt (pathName t.dest)).1) =
      (List.range hexs.length).map (rename_candidate name) := by
  have hname' : name.toList ≠ [] := by
    intro hcon
    apply hname
    have h2 := congrArg String.mk hcon
    rw [strMk_toList] at h2
    exact h2.trans (by rfl)
  have hmain := rename_fold_stems directory name hname' hexs.length hinj hexs 0 []
    (by omega)
    (by
      intro h hh
      refine ⟨(hhex h hh).1, ?_⟩
      rw [List.all_eq_true]
      intro c hc
      exact isWordChar_of_hex c ((hhex h hh).2 c hc))
    (by intro t ht; cases ht)
    (by simp)
  simpa using hmain

set_option maxRecDepth 100000 in
/-- Claim C6, witness: two documents sharing the base name receive the
stems base and base_1. -/
theorem C6_witness :
    (("base" : String) ≠ "") ∧
    (∀ h ∈ ([uidX, uidX] : List String),
      h.toList.length = 32 ∧ ∀ c ∈ h.toList, isHexDigitChar c = true) ∧
    ((([uidX, uidX].map (fun hx => (["root"] : FPath) ++ ["base" ++ " " ++ hx ++ ".md"])).foldl
        (fun acc p => (generate_rename_markdown_task p ["root"] acc).2) []).map
      (fun t => (splitStemExt (pathName t.dest)).1) =
      (List.range ([uidX, uidX] : List String).length).map (rename_candidate "base")) :=
  ⟨by decide, by decide,
    C6_rename_stems ["root"] "base" [uidX, uidX] (by decide) (by decide) (by decide)⟩

end OI
